import Mathlib

/-!
Shallow embedding of the membership-request machinery of the Groupy client
library (src/groupy/resources.py, exercised by src/tests/api/test_memberships.py).

Python dicts with string keys and string values are embedded as association
lists (`Rec`) with first-match lookup; Python exceptions become an explicit
`PyError` value threaded through `Except`/`Option`; the mutable
`MembershipRequest` object becomes a record passed through explicit state
transitions.  The wall clock and the HTTP transport of `poll` are modelled as
oracle functions, and the loop carries explicit fuel.
-/

set_option maxHeartbeats 1000000

namespace Groupy

/-- A JSON-style record (Python dict with string keys/values), as an
association list with first-match lookup. -/
abbrev Rec := List (String × String)

/-- The Python exceptions relevant to this slice of the library. -/
inductive PyError where
  | resultsNotReady
  | resultsExpired
  | keyError
  | typeError
  | attributeError
  | generic
deriving Repr, DecidableEq

/-- First-match association-list lookup: the embedding of `d[k]` /
`k in d` on a Python dict. -/
def lookupKey {α : Type} (k : String) : List (String × α) → Option α
  | [] => none
  | p :: rest => if p.1 = k then some p.2 else lookupKey k rest

/-- Removal of a key: the embedding of `d.pop(k)`'s effect on the dict. -/
def eraseKey {α : Type} (k : String) (r : List (String × α)) : List (String × α) :=
  r.filter (fun p => p.1 ≠ k)

/-- Overwrite the value stored at an existing key (Python dict assignment to a
present key keeps the entry's position). -/
def setKey {α : Type} (k : String) (v : α) (d : List (String × α)) : List (String × α) :=
  d.map (fun p => if p.1 = k then (k, v) else p)

/-- Python dict insertion: overwrite in place when the key is present,
append otherwise. -/
def dictInsert {α : Type} (d : List (String × α)) (k : String) (v : α) : List (String × α) :=
  if (lookupKey k d).isSome then setKey k v d else d ++ [(k, v)]

/-- The slice of `resources.Member` relevant to reconciliation: the
`group_id` positional argument and the remaining keyword data bag
(`Resource.data`).  The manager references are external collaborators and
carry no state that the claims mention. -/
structure Member where
  group_id : String
  data : Rec
deriving Repr, DecidableEq

/-- Embedding of the call `Member(manager, **member_data)`
(resources.py line 257) against `Member.__init__(self, manager, group_id,
**data)` (lines 151-157): a missing `group_id` key is a `TypeError`
(missing required positional argument); `__init__` then reads
`self.user_id`, which `Resource.__getattr__` (lines 14-19) turns into an
`AttributeError` when `user_id` is absent from the data bag. -/
def mkMember (member_data : Rec) : Except PyError Member :=
  match lookupKey "group_id" member_data with
  | none => .error .typeError
  | some gid =>
    let d := eraseKey "group_id" member_data
    match lookupKey "user_id" d with
    | none => .error .attributeError
    | some _ => .ok ⟨gid, d⟩

/-- The data-field accesses performed by `Member.__repr__` (resources.py
lines 159-162): it reads `self.user_id` and `self.nickname` through
`Resource.__getattr__`, each raising `AttributeError` when the field is
absent.  The constant format text is elided; the pair is the two field
values in access order. -/
def memberReprFields (m : Member) : Except PyError (String × String) :=
  match lookupKey "user_id" m.data with
  | none => .error .attributeError
  | some u =>
    match lookupKey "nickname" m.data with
    | none => .error .attributeError
    | some n => .ok (u, n)

/-- The fixture of src/tests/api/test_memberships.py lines 10-18 (without
keyword overrides). -/
def get_fake_member_data : Rec :=
  [("id", "foo"), ("group_id", "bar"), ("user_id", "baz"), ("nicknack", "nick")]

/-- Embedding of the dict comprehension
`{member['guid']: member for member in results}` (resources.py line 249):
each record is inserted under its `guid` value, later duplicates
overwriting earlier ones; a record without a `guid` key raises `KeyError`. -/
def buildIndex : List Rec → List (String × Rec) → Except PyError (List (String × Rec))
  | [], acc => .ok acc
  | s :: rest, acc =>
    match lookupKey "guid" s with
    | none => .error .keyError
    | some g => buildIndex rest (dictInsert acc g s)

/-- The request loop of `_process_new_members` (resources.py lines 250-258),
threading the mutable index explicitly.  `request['guid']` and
`data[request['guid']]` both raise `KeyError`, which the `try` catches by
appending the request to `failures`; `member_data.pop('guid')` raises an
uncaught `KeyError` when the key is already gone, and mutates the record
stored in the index; `Member(...)` may raise as in `mkMember`. -/
def processLoop : List (String × Rec) → List Rec → Except PyError (List Member × List Rec)
  | _, [] => .ok ([], [])
  | idx, request :: rest =>
    match lookupKey "guid" request with
    | none => (processLoop idx rest).map (fun p => (p.1, request :: p.2))
    | some g =>
      match lookupKey g idx with
      | none => (processLoop idx rest).map (fun p => (p.1, request :: p.2))
      | some member_data =>
        match lookupKey "guid" member_data with
        | none => .error .keyError
        | some _ =>
          let md := eraseKey "guid" member_data
          match mkMember md with
          | .error e => .error e
          | .ok member => (processLoop (setKey g md idx) rest).map (fun p => (member :: p.1, p.2))

/-- Embedding of `MembershipRequest._process_new_members` (resources.py
lines 246-259): build the guid index, then reconcile the requested batch
against it.  On success the pair is the `Results(members, failures)`
namedtuple. -/
def processNewMembers (requests results : List Rec) : Except PyError (List Member × List Rec) :=
  match buildIndex results [] with
  | .error e => .error e
  | .ok idx => processLoop idx requests

/-- The mutable fields of `MembershipRequest` (resources.py lines 225-231). -/
structure MembershipRequest where
  requests : List Rec
  expired_exc : Option PyError
  not_ready_exc : Option PyError
  is_ready_flag : Bool
  results : Option (List Member × List Rec)
deriving Repr, DecidableEq

/-- Embedding of `MembershipRequest.__init__` (resources.py lines 225-231):
all condition slots empty, not ready, results unset (`None`).  The manager
and the response data bag (holding `results_id`) are external. -/
def mkRequest (requests : List Rec) : MembershipRequest :=
  { requests := requests
    expired_exc := none
    not_ready_exc := none
    is_ready_flag := false
    results := none }

/-- The outcome of one `manager.check(results_id)` call, as observed by
`_check_if_ready`. -/
inductive CheckOutcome where
  | ok (members : List Rec)
  | notReady
  | expired
  | genericFailure
deriving Repr, DecidableEq

/-- Embedding of `MembershipRequest._check_if_ready` (resources.py lines
233-244).  Mirrors the Python statement order: on a successful check the
ready flag is set and the not-ready slot cleared *before*
`_process_new_members` runs, so those mutations persist when reconciliation
raises; `ResultsNotReady` and `ResultsExpired` are caught and recorded; any
other exception propagates with no state change.  Returns the post-state
and the propagated exception, if any. -/
def checkIfReady (m : MembershipRequest) (o : CheckOutcome) :
    MembershipRequest × Option PyError :=
  match o with
  | .ok resultsList =>
    let m1 := { m with is_ready_flag := true, not_ready_exc := none }
    match processNewMembers m.requests resultsList with
    | .ok r => ({ m1 with results := some r }, none)
    | .error e => (m1, some e)
  | .notReady => ({ m with is_ready_flag := false, not_ready_exc := some .resultsNotReady }, none)
  | .expired => ({ m with is_ready_flag := true, expired_exc := some .resultsExpired }, none)
  | .genericFailure => (m, some .generic)

/-- Embedding of `MembershipRequest.is_ready` (resources.py lines 261-264):
when the flag is already set no check is performed; otherwise exactly one
check runs and the flag is returned afterwards.  The third component counts
`manager.check` calls performed by this invocation. -/
def MembershipRequest.is_ready (m : MembershipRequest) (o : CheckOutcome) :
    MembershipRequest × Except PyError Bool × Nat :=
  if m.is_ready_flag then (m, Except.ok true, 0)
  else
    match checkIfReady m o with
    | (m', some e) => (m', Except.error e, 1)
    | (m', none) => (m', Except.ok m'.is_ready_flag, 1)

/-- Embedding of `MembershipRequest.get` (resources.py lines 272-277):
re-raise a recorded expired condition first, then a recorded not-ready
condition, else return `self.results` (possibly still `None`). -/
def MembershipRequest.get (m : MembershipRequest) :
    Except PyError (Option (List Member × List Rec)) :=
  match m.expired_exc with
  | some e => Except.error e
  | none =>
    match m.not_ready_exc with
    | some e => Except.error e
    | none => Except.ok m.results

/-- The abstract lifecycle states named by the specification. -/
inductive MRState where
  | Pending
  | Ready
  | Expired
deriving Repr, DecidableEq

/-- The specification state read off the concrete fields: a recorded
expired condition means `Expired`; otherwise the ready flag distinguishes
`Ready` from `Pending`. -/
def MembershipRequest.state (m : MembershipRequest) : MRState :=
  if m.expired_exc.isSome then .Expired
  else if m.is_ready_flag then .Ready
  else .Pending

/-- An HTTP response to the results endpoint: status code plus the decoded
`members` list of the body. -/
structure Response where
  code : Nat
  members : List Rec
deriving Repr, DecidableEq

namespace Memberships

/-- Modelled from the spec: `Memberships.check` lives in
groupy/api/memberships.py, which is not present under src/; its behavior is
given by spec section 4.1 / 4.4 and pinned by `CheckMembershipTests`
(src/tests/api/test_memberships.py lines 45-61): 503 fails with
`ResultsNotReady`, 404 fails with `ResultsExpired`, any 2xx returns the
decoded `members` list, and any other status propagates as a generic,
unclassified request failure. -/
def check (resp : Response) : Except PyError (List Rec) :=
  if resp.code = 503 then .error .resultsNotReady
  else if resp.code = 404 then .error .resultsExpired
  else if 200 ≤ resp.code ∧ resp.code ≤ 299 then .ok resp.members
  else .error .generic

end Memberships

/-- The `CheckOutcome` observed by `_check_if_ready` when `manager.check`
processes the given response. -/
def outcomeOfResponse (resp : Response) : CheckOutcome :=
  match Memberships.check resp with
  | .ok ms => .ok ms
  | .error .resultsNotReady => .notReady
  | .error .resultsExpired => .expired
  | .error _ => .genericFailure

instance {ε α : Type} [DecidableEq ε] [DecidableEq α] : DecidableEq (Except ε α) := fun x y =>
  match x, y with
  | Except.ok a, Except.ok b =>
    match decEq a b with
    | isTrue h => isTrue (h ▸ rfl)
    | isFalse h => isFalse (fun hc => h (Except.ok.inj hc))
  | Except.error a, Except.error b =>
    match decEq a b with
    | isTrue h => isTrue (h ▸ rfl)
    | isFalse h => isFalse (fun hc => h (Except.error.inj hc))
  | Except.ok _, Except.error _ => isFalse (fun hc => Except.noConfusion hc)
  | Except.error _, Except.ok _ => isFalse (fun hc => Except.noConfusion hc)

/-- How a `poll` call ends: either the loop exited (by timeout or
readiness) and `get()` was called and its result returned, or an exception
propagated out of an `is_ready()` call and `get()` never ran. -/
inductive PollOutcome where
  | finished (r : Except PyError (Option (List Member × List Rec)))
  | raised (e : PyError)
deriving Repr, DecidableEq

/-- Embedding of the loop of `MembershipRequest.poll` (resources.py lines
266-270): `while time.time() - start < timeout and not self.is_ready():
time.sleep(interval)`, then `return self.get()`.  `clock` gives the
successive `time.time()` samples (`tick` indexes them), `outcomes` gives
the successive `manager.check` outcomes (indexed by checks performed so
far), `fuel` bounds the number of loop iterations (`none` = the loop has
not terminated within the fuel).  The last two results count the check
calls and the `sleep(interval)` calls performed. -/
def pollAux (outcomes : Nat → CheckOutcome) (clock : Nat → Nat) (start timeout : Nat) :
    Nat → MembershipRequest → Nat → Nat → Nat →
    Option (MembershipRequest × PollOutcome × Nat × Nat)
  | 0, _, _, _, _ => none
  | fuel + 1, m, tick, checks, sleeps =>
    if ((clock tick : Int) - (start : Int)) < (timeout : Int) then
      match MembershipRequest.is_ready m (outcomes checks) with
      | (m', Except.error e, c) => some (m', .raised e, checks + c, sleeps)
      | (m', Except.ok b, c) =>
        if b then some (m', .finished m'.get, checks + c, sleeps)
        else pollAux outcomes clock start timeout fuel m' (tick + 1) (checks + c) (sleeps + 1)
    else some (m, .finished m.get, checks, sleeps)

/-- Embedding of `MembershipRequest.poll`: `start = time.time()` is the
clock sample 0, and the first loop condition reads sample 1.  Each counted
sleep lasts `interval` time-units; the interval does not influence the
state transitions, so it is not a parameter here. -/
def poll (outcomes : Nat → CheckOutcome) (clock : Nat → Nat) (timeout : Nat)
    (fuel : Nat) (m : MembershipRequest) :
    Option (MembershipRequest × PollOutcome × Nat × Nat) :=
  pollAux outcomes clock (clock 0) timeout fuel m 1 0 0

/-- A public operation on a `MembershipRequest` together with the check
outcome it observes.  A terminating `poll` is a finite sequence of
`readyCheck` effects followed by a `getResults`, so sequences of these
operations cover all terminating public-operation histories. -/
inductive MROp where
  | readyCheck (o : CheckOutcome)
  | getResults
deriving Repr, DecidableEq

/-- The state effect of one public operation (`get` never mutates). -/
def applyOp (m : MembershipRequest) : MROp → MembershipRequest
  | .readyCheck o => (m.is_ready o).1
  | .getResults => m

/-- The state after a sequence of public operations. -/
def applyOps (m : MembershipRequest) (ops : List MROp) : MembershipRequest :=
  ops.foldl applyOp m

/-- Iterating `is_ready` against a transport that keeps answering
not-ready. -/
def iterNotReady : Nat → MembershipRequest → MembershipRequest
  | 0, m => m
  | n + 1, m => iterNotReady n (m.is_ready .notReady).1

/-- The member that reconciliation produces for one requested record, read
off the built index: `none` when the request has no guid or its guid is not
in the index, otherwise the `Member` built from the matched record minus
its guid. -/
def succOf (idx0 : List (String × Rec)) (r : Rec) : Option Member :=
  match lookupKey "guid" r with
  | none => none
  | some g =>
    match lookupKey g idx0 with
    | none => none
    | some md => (mkMember (eraseKey "guid" md)).toOption

/-- Whether some returned server record carries the same guid as the
requested record `r`. -/
def matchedIn (S : List Rec) (r : Rec) : Bool :=
  match lookupKey "guid" r with
  | none => false
  | some g => S.any (fun s => lookupKey "guid" s == some g)

lemma state_pending_iff (m : MembershipRequest) :
    m.state = MRState.Pending ↔ (m.expired_exc = none ∧ m.is_ready_flag = false) := by
  cases h1 : m.expired_exc <;> cases h2 : m.is_ready_flag <;>
    simp [MembershipRequest.state, h1, h2]

/-- Claim C2 counterexample: in Scenario A exactly as stated, the first check
observes 503 and `is_ready` returns false, but the second check, whose
returned record `{guid:"g1", id:"m1", user_id:"u1"}` carries no `group_id`
key, makes reconciliation call `Member(manager, **member_data)` without the
required positional `group_id`, so `is_ready` propagates a `TypeError`
instead of returning true. -/
theorem scenarioA_as_stated_raises :
    (((mkRequest [[("guid", "g1"), ("nickname", "Ann")]]).is_ready
        (outcomeOfResponse ⟨503, []⟩)).2.1 = Except.ok false) ∧
    ((((mkRequest [[("guid", "g1"), ("nickname", "Ann")]]).is_ready
        (outcomeOfResponse ⟨503, []⟩)).1.is_ready
        (outcomeOfResponse ⟨200, [[("guid", "g1"), ("id", "m1"), ("user_id", "u1")]]⟩)).2.1
      = Except.error PyError.typeError) :=
  ⟨rfl, rfl⟩

/-- Claim C2 (amended): Scenario A holds once the returned record also
carries a `group_id` field: the 503 check leaves `is_ready` false, the
second check with `{guid:"g1", id:"m1", user_id:"u1", group_id:"bar"}` makes
`is_ready` return true, and `get` then returns the pair
(succeeded = [Member with id "m1" and user_id "u1"], failed = []). -/
theorem scenarioA_with_group_id :
    (((mkRequest [[("guid", "g1"), ("nickname", "Ann")]]).is_ready
        (outcomeOfResponse ⟨503, []⟩)).2.1 = Except.ok false) ∧
    ((((mkRequest [[("guid", "g1"), ("nickname", "Ann")]]).is_ready
        (outcomeOfResponse ⟨503, []⟩)).1.is_ready
        (outcomeOfResponse
          ⟨200, [[("guid", "g1"), ("id", "m1"), ("user_id", "u1"), ("group_id", "bar")]]⟩)).2.1
      = Except.ok true) ∧
    ((((mkRequest [[("guid", "g1"), ("nickname", "Ann")]]).is_ready
        (outcomeOfResponse ⟨503, []⟩)).1.is_ready
        (outcomeOfResponse
          ⟨200, [[("guid", "g1"), ("id", "m1"), ("user_id", "u1"), ("group_id", "bar")]]⟩)).1.get
      = Except.ok (some ([⟨"bar", [("id", "m1"), ("user_id", "u1")]⟩], []))) :=
  ⟨rfl, rfl, rfl⟩

/-- Claim C3: when a check performed by `is_ready` fails with
`ResultsExpired`, `is_ready` returns true having recorded the expired
condition, the request's state is `Expired`, and a subsequent `get` fails
with `ResultsExpired`. -/
theorem is_ready_expired_transitions (m : MembershipRequest)
    (h : m.is_ready_flag = false) :
    ∃ m', m.is_ready .expired = (m', Except.ok true, 1) ∧
      m'.expired_exc = some PyError.resultsExpired ∧
      m'.state = MRState.Expired ∧
      m'.get = Except.error PyError.resultsExpired := by
  refine ⟨{ m with is_ready_flag := true, expired_exc := some .resultsExpired },
    ?_, rfl, ?_, ?_⟩
  · simp [MembershipRequest.is_ready, h, checkIfReady]
  · simp [MembershipRequest.state]
  · simp [MembershipRequest.get]

theorem is_ready_expired_transitions_w :
    ∃ m', (mkRequest []).is_ready .expired = (m', Except.ok true, 1) ∧
      m'.expired_exc = some PyError.resultsExpired ∧
      m'.state = MRState.Expired ∧
      m'.get = Except.error PyError.resultsExpired :=
  is_ready_expired_transitions (mkRequest []) rfl

/-- Claim C5: the manager's `check` maps a 503 response to `ResultsNotReady`,
a 404 response to `ResultsExpired`, any 2xx response to the decoded
`members` list of the body, and any other status to a generic, unclassified
request failure. -/
theorem check_classification (resp : Response) :
    (resp.code = 503 → Memberships.check resp = Except.error PyError.resultsNotReady) ∧
    (resp.code = 404 → Memberships.check resp = Except.error PyError.resultsExpired) ∧
    (200 ≤ resp.code → resp.code ≤ 299 → Memberships.check resp = Except.ok resp.members) ∧
    (resp.code ≠ 503 → resp.code ≠ 404 → ¬(200 ≤ resp.code ∧ resp.code ≤ 299) →
      Memberships.check resp = Except.error PyError.generic) := by
  refine ⟨?_, ?_, ?_, ?_⟩
  · intro h; simp [Memberships.check, h]
  · intro h; simp [Memberships.check, h]
  · intro h1 h2
    have h503 : resp.code ≠ 503 := by omega
    have h404 : resp.code ≠ 404 := by omega
    simp [Memberships.check, h503, h404, h1, h2]
  · intro h1 h2 h3; simp [Memberships.check, h1, h2, h3]

theorem check_classification_w :
    Memberships.check ⟨503, []⟩ = Except.error PyError.resultsNotReady ∧
    Memberships.check ⟨404, []⟩ = Except.error PyError.resultsExpired ∧
    Memberships.check ⟨200, [[("guid", "g")]]⟩ = Except.ok [[("guid", "g")]] ∧
    Memberships.check ⟨500, []⟩ = Except.error PyError.generic :=
  ⟨(check_classification ⟨503, []⟩).1 rfl,
   (check_classification ⟨404, []⟩).2.1 rfl,
   (check_classification ⟨200, [[("guid", "g")]]⟩).2.2.1 (by decide) (by decide),
   (check_classification ⟨500, []⟩).2.2.2 (by decide) (by decide) (by decide)⟩

/-- Claim C8: with `timeout = 0` the loop condition
`time.time() - start < timeout` is already false at its first evaluation
(the wall clock does not run backwards), so `poll` performs zero readiness
checks (hence at most one), never sleeps, and immediately returns `get()`. -/
theorem poll_zero_timeout (outcomes : Nat → CheckOutcome) (clock : Nat → Nat)
    (fuel : Nat) (m : MembershipRequest) (h : clock 0 ≤ clock 1) :
    poll outcomes clock 0 (fuel + 1) m = some (m, PollOutcome.finished m.get, 0, 0) := by
  unfold poll pollAux
  rw [if_neg (by omega)]

theorem poll_zero_timeout_w :
    poll (fun _ => CheckOutcome.notReady) (fun n => n) 0 1 (mkRequest []) =
      some (mkRequest [], PollOutcome.finished (mkRequest []).get, 0, 0) :=
  poll_zero_timeout (fun _ => CheckOutcome.notReady) (fun n => n) 0 (mkRequest [])
    (by decide)

/-- Claim C9: on a freshly constructed `MembershipRequest`, before any check
has run, `get` raises nothing and returns the still-unset results field
(`None`). -/
theorem get_fresh_returns_none (reqs : List Rec) :
    (mkRequest reqs).get = Except.ok none := rfl

/-- Claim C10 counterexample: `Member.__repr__` in src/groupy/resources.py
reads `user_id` and `nickname`, not `nicknack`.  On the member built from
the test fixture `get_fake_member_data` (whose data bag carries `nicknack`
but no `nickname`), the rendering accesses fail with `AttributeError`; had
`__repr__` read `nicknack` as the claim states, they would succeed here. -/
theorem repr_on_fixture_member_fails :
    mkMember get_fake_member_data =
      Except.ok ⟨"bar", [("id", "foo"), ("user_id", "baz"), ("nicknack", "nick")]⟩ ∧
    memberReprFields ⟨"bar", [("id", "foo"), ("user_id", "baz"), ("nicknack", "nick")]⟩ =
      Except.error PyError.attributeError :=
  ⟨rfl, rfl⟩

lemma is_ready_fst (m : MembershipRequest) (o : CheckOutcome) :
    (m.is_ready o).1 = if m.is_ready_flag then m else (checkIfReady m o).1 := by
  unfold MembershipRequest.is_ready
  by_cases hf : m.is_ready_flag
  · simp [hf]
  · simp only [hf, if_false, Bool.false_eq_true]
    rcases hc : checkIfReady m o with ⟨m', e⟩
    cases e <;> simp

lemma checkIfReady_keeps_resultsExpired (m : MembershipRequest) (o : CheckOutcome)
    (h : m.expired_exc = some PyError.resultsExpired) :
    (checkIfReady m o).1.expired_exc = some PyError.resultsExpired := by
  cases o with
  | ok ms =>
    unfold checkIfReady
    cases hp : processNewMembers m.requests ms <;> simp [hp, h]
  | notReady => simpa [checkIfReady] using h
  | expired => simp [checkIfReady]
  | genericFailure => simpa [checkIfReady] using h

lemma checkIfReady_keeps_expired_isSome (m : MembershipRequest) (o : CheckOutcome)
    (h : m.expired_exc.isSome = true) :
    (checkIfReady m o).1.expired_exc.isSome = true := by
  cases o with
  | ok ms =>
    unfold checkIfReady
    cases hp : processNewMembers m.requests ms <;> simp [hp, h]
  | notReady => simpa [checkIfReady] using h
  | expired => simp [checkIfReady]
  | genericFailure => simpa [checkIfReady] using h

lemma state_ne_pending_iff (m : MembershipRequest) :
    m.state ≠ MRState.Pending ↔
      (m.expired_exc.isSome = true ∨ m.is_ready_flag = true) := by
  cases h1 : m.expired_exc <;> cases h2 : m.is_ready_flag <;>
    simp [MembershipRequest.state, h1, h2]

lemma applyOp_keeps_resultsExpired (m : MembershipRequest) (op : MROp)
    (h : m.expired_exc = some PyError.resultsExpired) :
    (applyOp m op).expired_exc = some PyError.resultsExpired := by
  cases op with
  | getResults => exact h
  | readyCheck o =>
    show ((m.is_ready o).1).expired_exc = some PyError.resultsExpired
    rw [is_ready_fst]
    by_cases hf : m.is_ready_flag
    · simp [hf, h]
    · simp [hf, checkIfReady_keeps_resultsExpired m o h]

lemma applyOp_keeps_nonpending (m : MembershipRequest) (op : MROp)
    (h : m.expired_exc.isSome = true ∨ m.is_ready_flag = true) :
    (applyOp m op).expired_exc.isSome = true ∨ (applyOp m op).is_ready_flag = true := by
  cases op with
  | getResults => exact h
  | readyCheck o =>
    show ((m.is_ready o).1).expired_exc.isSome = true ∨
      ((m.is_ready o).1).is_ready_flag = true
    rw [is_ready_fst]
    by_cases hf : m.is_ready_flag
    · simp [hf]
    · simp only [hf, if_false, Bool.false_eq_true]
      cases h with
      | inl he => exact Or.inl (checkIfReady_keeps_expired_isSome m o he)
      | inr hfl => exact absurd hfl hf

/-- Claim C4: once the expired condition is recorded, every later `get`
fails with `ResultsExpired` regardless of any subsequent public operation,
and no sequence of public operations (`is_ready` with any check outcome,
`get`; a terminating `poll` is such a sequence) moves the state out of
`Ready`/`Expired` back to `Pending`. -/
theorem expired_is_sticky (m : MembershipRequest) (ops : List MROp) :
    (m.expired_exc = some PyError.resultsExpired →
      (applyOps m ops).expired_exc = some PyError.resultsExpired ∧
      (applyOps m ops).get = Except.error PyError.resultsExpired) ∧
    (m.state ≠ MRState.Pending → (applyOps m ops).state ≠ MRState.Pending) := by
  have key : ∀ (ops : List MROp) (m : MembershipRequest),
      (m.expired_exc = some PyError.resultsExpired →
        (applyOps m ops).expired_exc = some PyError.resultsExpired) ∧
      ((m.expired_exc.isSome = true ∨ m.is_ready_flag = true) →
        ((applyOps m ops).expired_exc.isSome = true ∨
          (applyOps m ops).is_ready_flag = true)) := by
    intro ops
    induction ops with
    | nil => exact fun m => ⟨fun h => h, fun h => h⟩
    | cons op rest ih =>
      intro m
      refine ⟨fun h => ?_, fun h => ?_⟩
      · have := (ih (applyOp m op)).1 (applyOp_keeps_resultsExpired m op h)
        simpa [applyOps, List.foldl_cons] using this
      · have := (ih (applyOp m op)).2 (applyOp_keeps_nonpending m op h)
        simpa [applyOps, List.foldl_cons] using this
  refine ⟨fun h => ?_, fun h => ?_⟩
  · have he := (key ops m).1 h
    refine ⟨he, ?_⟩
    unfold MembershipRequest.get
    rw [he]
  · exact (state_ne_pending_iff _).2 ((key ops m).2 ((state_ne_pending_iff m).1 h))

theorem expired_is_sticky_w :
    (applyOps
        { requests := [], expired_exc := some PyError.resultsExpired,
          not_ready_exc := none, is_ready_flag := true, results := none }
        [MROp.readyCheck (CheckOutcome.ok []), MROp.getResults]).get
      = Except.error PyError.resultsExpired ∧
    (applyOps
        { requests := [], expired_exc := some PyError.resultsExpired,
          not_ready_exc := none, is_ready_flag := true, results := none }
        [MROp.readyCheck (CheckOutcome.ok []), MROp.getResults]).state
      ≠ MRState.Pending :=
  ⟨((expired_is_sticky
      { requests := [], expired_exc := some PyError.resultsExpired,
        not_ready_exc := none, is_ready_flag := true, results := none }
      [MROp.readyCheck (CheckOutcome.ok []), MROp.getResults]).1 rfl).2,
   (expired_is_sticky
      { requests := [], expired_exc := some PyError.resultsExpired,
        not_ready_exc := none, is_ready_flag := true, results := none }
      [MROp.readyCheck (CheckOutcome.ok []), MROp.getResults]).2 (by decide)⟩

lemma is_ready_notReady_step (m : MembershipRequest) (h : m.is_ready_flag = false) :
    m.is_ready .notReady =
      ({ m with is_ready_flag := false,
                not_ready_exc := some PyError.resultsNotReady },
        Except.ok false, 1) := by
  simp [MembershipRequest.is_ready, h, checkIfReady]

lemma iterNotReady_pending (n : Nat) :
    ∀ m : MembershipRequest, m.state = MRState.Pending →
      (iterNotReady n m).state = MRState.Pending := by
  induction n with
  | zero => exact fun m h => h
  | succ n ih =>
    intro m h
    obtain ⟨h1, h2⟩ := (state_pending_iff m).1 h
    show (iterNotReady n (m.is_ready .notReady).1).state = _
    rw [is_ready_notReady_step m h2]
    exact ih _ ((state_pending_iff _).2 ⟨h1, rfl⟩)

/-- Claim C7: on a still-`Pending` request, an `is_ready` call whose check
fails with `ResultsNotReady` performs exactly one check call, returns
false, records the not-ready condition, and leaves the state `Pending`;
iterating `is_ready` any number of times under not-ready never moves the
state away from `Pending`. -/
theorem is_ready_notReady_pending (m : MembershipRequest)
    (h : m.state = MRState.Pending) :
    (∃ m', m.is_ready .notReady = (m', Except.ok false, 1) ∧
      m'.not_ready_exc = some PyError.resultsNotReady ∧
      m'.state = MRState.Pending) ∧
    (∀ n, (iterNotReady n m).state = MRState.Pending) := by
  obtain ⟨h1, h2⟩ := (state_pending_iff m).1 h
  refine ⟨⟨_, is_ready_notReady_step m h2, rfl,
    (state_pending_iff _).2 ⟨h1, rfl⟩⟩, fun n => iterNotReady_pending n m h⟩

theorem is_ready_notReady_pending_w :
    (∃ m', (mkRequest [[("guid", "g1")]]).is_ready .notReady =
        (m', Except.ok false, 1) ∧
      m'.not_ready_exc = some PyError.resultsNotReady ∧
      m'.state = MRState.Pending) ∧
    (iterNotReady 3 (mkRequest [[("guid", "g1")]])).state = MRState.Pending :=
  ⟨(is_ready_notReady_pending (mkRequest [[("guid", "g1")]]) rfl).1,
   (is_ready_notReady_pending (mkRequest [[("guid", "g1")]]) rfl).2 3⟩

/-- Claim C6: whenever the `poll` loop exits (by timeout or readiness), the
returned value is exactly `get()` of the final state; concretely, a fresh
request polled against a transport that keeps answering not-ready, with the
timeout elapsing at the second clock sample, performs one check and one
sleep and fails with `ResultsNotReady` — an outcome distinct from
`ResultsExpired`. -/
theorem poll_returns_get :
    (∀ (outcomes : Nat → CheckOutcome) (clock : Nat → Nat)
        (start timeout fuel : Nat) (m : MembershipRequest)
        (tick checks sleeps : Nat) (m' : MembershipRequest)
        (r : Except PyError (Option (List Member × List Rec))) (c s : Nat),
        pollAux outcomes clock start timeout fuel m tick checks sleeps =
          some (m', PollOutcome.finished r, c, s) →
        r = m'.get) ∧
    (pollAux (fun _ => CheckOutcome.notReady) (fun n => n) 0 2 5 (mkRequest []) 1 0 0 =
      some ({ requests := [], expired_exc := none,
              not_ready_exc := some PyError.resultsNotReady,
              is_ready_flag := false, results := none },
            PollOutcome.finished (Except.error PyError.resultsNotReady), 1, 1)) ∧
    PyError.resultsNotReady ≠ PyError.resultsExpired := by
  refine ⟨?_, rfl, by decide⟩
  intro outcomes clock start timeout fuel
  induction fuel with
  | zero =>
    intro m tick checks sleeps m' r c s heq
    simp [pollAux] at heq
  | succ fuel ih =>
    intro m tick checks sleeps m' r c s heq
    unfold pollAux at heq
    split at heq
    · split at heq
      · simp at heq
      · rename_i m'' b c'' hir
        split at heq
        · simp only [Option.some.injEq, Prod.mk.injEq,
            PollOutcome.finished.injEq] at heq
          obtain ⟨hm, hr, -⟩ := heq
          subst hm
          exact hr.symm
        · exact ih m'' (tick + 1) (checks + c'') (sleeps + 1) m' r c s heq
    · simp only [Option.some.injEq, Prod.mk.injEq,
        PollOutcome.finished.injEq] at heq
      obtain ⟨hm, hr, -⟩ := heq
      subst hm
      exact hr.symm

theorem poll_returns_get_w :
    (Except.ok none : Except PyError (Option (List Member × List Rec))) =
      (mkRequest []).get :=
  poll_returns_get.1 (fun _ => CheckOutcome.notReady) (fun n => n) 0 0 1
    (mkRequest []) 1 0 0 (mkRequest []) (Except.ok none) 0 0 rfl

lemma lookupKey_setKey_ne {α : Type} (k g : String) (v : α)
    (d : List (String × α)) (h : g ≠ k) :
    lookupKey g (setKey k v d) = lookupKey g d := by
  have hkg : ¬(k = g) := fun hh => h hh.symm
  induction d with
  | nil => rfl
  | cons p rest ih =>
    by_cases hp : p.1 = k
    · have hpg : ¬(p.1 = g) := fun hh => hkg (hp.symm.trans hh)
      show lookupKey g ((if p.1 = k then (k, v) else p) :: setKey k v rest) =
        lookupKey g (p :: rest)
      rw [if_pos hp]
      show (if k = g then some v else lookupKey g (setKey k v rest)) =
        (if p.1 = g then some p.2 else lookupKey g rest)
      rw [if_neg hkg, if_neg hpg]
      exact ih
    · show lookupKey g ((if p.1 = k then (k, v) else p) :: setKey k v rest) =
        lookupKey g (p :: rest)
      rw [if_neg hp]
      show (if p.1 = g then some p.2 else lookupKey g (setKey k v rest)) =
        (if p.1 = g then some p.2 else lookupKey g rest)
      by_cases hg : p.1 = g
      · rw [if_pos hg, if_pos hg]
      · rw [if_neg hg, if_neg hg]; exact ih

lemma lookupKey_setKey_self {α : Type} (k : String) (v : α)
    (d : List (String × α)) (h : (lookupKey k d).isSome = true) :
    lookupKey k (setKey k v d) = some v := by
  induction d with
  | nil => simp [lookupKey] at h
  | cons p rest ih =>
    by_cases hp : p.1 = k
    · show lookupKey k ((if p.1 = k then (k, v) else p) :: setKey k v rest) = some v
      rw [if_pos hp]
      show (if k = k then some v else lookupKey k (setKey k v rest)) = some v
      rw [if_pos rfl]
    · have hcons : lookupKey k (p :: rest) = lookupKey k rest := by
        show (if p.1 = k then some p.2 else lookupKey k rest) = lookupKey k rest
        rw [if_neg hp]
      rw [hcons] at h
      show lookupKey k ((if p.1 = k then (k, v) else p) :: setKey k v rest) = some v
      rw [if_neg hp]
      show (if p.1 = k then some p.2 else lookupKey k (setKey k v rest)) = some v
      rw [if_neg hp]
      exact ih h

lemma lookupKey_append_of_none {α : Type} (g : String)
    (d1 d2 : List (String × α)) (h : lookupKey g d1 = none) :
    lookupKey g (d1 ++ d2) = lookupKey g d2 := by
  induction d1 with
  | nil => rfl
  | cons p rest ih =>
    by_cases hp : p.1 = g
    · simp [lookupKey, hp] at h
    · simp only [lookupKey, hp, if_false] at h
      simp [lookupKey, hp, ih h]

lemma lookupKey_append_of_some {α : Type} (g : String)
    (d1 d2 : List (String × α)) (v : α) (h : lookupKey g d1 = some v) :
    lookupKey g (d1 ++ d2) = some v := by
  induction d1 with
  | nil => simp [lookupKey] at h
  | cons p rest ih =>
    by_cases hp : p.1 = g
    · simp only [lookupKey, hp, if_true] at h ⊢
      simpa using h
    · simp only [lookupKey, hp, if_false] at h
      simp [lookupKey, hp, ih h]

lemma lookupKey_dictInsert {α : Type} (d : List (String × α)) (k : String)
    (v : α) (g : String) :
    lookupKey g (dictInsert d k v) = if g = k then some v else lookupKey g d := by
  unfold dictInsert
  by_cases hk : (lookupKey k d).isSome = true
  · rw [if_pos hk]
    by_cases hg : g = k
    · subst hg; rw [lookupKey_setKey_self g v d hk, if_pos rfl]
    · rw [lookupKey_setKey_ne k g v d hg, if_neg hg]
  · rw [if_neg hk]
    have h0 : lookupKey k d = none := by
      cases hc : lookupKey k d
      · rfl
      · rw [hc] at hk; simp at hk
    by_cases hg : g = k
    · subst hg
      rw [lookupKey_append_of_none g d [(g, v)] h0, if_pos rfl]
      simp [lookupKey]
    · rw [if_neg hg]
      cases hc : lookupKey g d with
      | some w => exact lookupKey_append_of_some g d [(k, v)] w hc
      | none =>
        rw [lookupKey_append_of_none g d [(k, v)] hc]
        have hkg : ¬(k = g) := fun hh => hg hh.symm
        simp [lookupKey, hkg]

lemma buildIndex_ok (S : List Rec)
    (hS : ∀ s ∈ S, (lookupKey "guid" s).isSome = true) :
    ∀ acc, ∃ idx0, buildIndex S acc = Except.ok idx0 := by
  induction S with
  | nil => exact fun acc => ⟨acc, rfl⟩
  | cons s rest ih =>
    intro acc
    obtain ⟨g, hg⟩ := Option.isSome_iff_exists.1 (hS s (List.mem_cons_self s rest))
    have hrest : ∀ x ∈ rest, (lookupKey "guid" x).isSome = true :=
      fun x hx => hS x (List.mem_cons_of_mem s hx)
    obtain ⟨idx0, hidx⟩ := ih hrest (dictInsert acc g s)
    exact ⟨idx0, by unfold buildIndex; rw [hg]; exact hidx⟩

lemma buildIndex_domain (S : List Rec) :
    ∀ (acc idx0 : List (String × Rec)), buildIndex S acc = Except.ok idx0 →
      ∀ g : String, (lookupKey g idx0).isSome =
        ((lookupKey g acc).isSome || S.any (fun s => lookupKey "guid" s == some g)) := by
  induction S with
  | nil =>
    intro acc idx0 h g
    cases h
    simp
  | cons s rest ih =>
    intro acc idx0 h g
    unfold buildIndex at h
    cases hgs : lookupKey "guid" s with
    | none => rw [hgs] at h; cases h
    | some gs =>
      rw [hgs] at h
      have hrec := ih (dictInsert acc gs s) idx0 h g
      rw [hrec, lookupKey_dictInsert]
      by_cases hg : g = gs
      · subst hg
        simp [List.any_cons, hgs]
      · have hne : ¬(gs == g) = true := by
          simp only [beq_iff_eq]
          exact fun hh => hg hh.symm
        simp only [if_neg hg, List.any_cons, hgs]
        cases (lookupKey g acc).isSome <;>
          cases hr : rest.any (fun x => lookupKey "guid" x == some g) <;>
            simp [hne, hr]

lemma buildIndex_values (S : List Rec) :
    ∀ (acc idx0 : List (String × Rec)), buildIndex S acc = Except.ok idx0 →
      ∀ (g : String) (md : Rec), lookupKey g idx0 = some md →
        lookupKey g acc = some md ∨ (md ∈ S ∧ lookupKey "guid" md = some g) := by
  induction S with
  | nil =>
    intro acc idx0 h g md hl
    cases h
    exact Or.inl hl
  | cons s rest ih =>
    intro acc idx0 h g md hl
    unfold buildIndex at h
    cases hgs : lookupKey "guid" s with
    | none => rw [hgs] at h; cases h
    | some gs =>
      rw [hgs] at h
      rcases ih (dictInsert acc gs s) idx0 h g md hl with hacc | ⟨hmem, hguid⟩
      · rw [lookupKey_dictInsert] at hacc
        by_cases hg : g = gs
        · subst hg
          rw [if_pos rfl] at hacc
          obtain rfl : s = md := by injection hacc
          exact Or.inr ⟨List.mem_cons_self s rest, hgs⟩
        · rw [if_neg hg] at hacc
          exact Or.inl hacc
      · exact Or.inr ⟨List.mem_cons_of_mem s hmem, hguid⟩

lemma length_filterMap_add_filter {α β : Type} (f : α → Option β) (l : List α) :
    (l.filterMap f).length + (l.filter (fun a => (f a).isNone)).length = l.length := by
  induction l with
  | nil => rfl
  | cons a l ih =>
    cases hf : f a <;> simp [List.filterMap_cons, List.filter_cons, hf] <;> omega

lemma processLoop_spec (idx0 : List (String × Rec)) :
    ∀ (R : List Rec) (idx : List (String × Rec)),
      (∀ r ∈ R, (lookupKey "guid" r).isSome = true) →
      (R.map (lookupKey "guid")).Nodup →
      (∀ r ∈ R, ∀ g, lookupKey "guid" r = some g →
        lookupKey g idx = lookupKey g idx0) →
      (∀ (g : String) (md : Rec), lookupKey g idx0 = some md →
        lookupKey "guid" md = some g ∧
          ∃ mem, mkMember (eraseKey "guid" md) = Except.ok mem) →
      processLoop idx R =
        Except.ok (R.filterMap (succOf idx0),
          R.filter (fun r => (succOf idx0 r).isNone)) := by
  intro R
  induction R with
  | nil => intro idx _ _ _ _; rfl
  | cons r rest ih =>
    intro idx hR hnd hagree hok
    rw [List.map_cons, List.nodup_cons] at hnd
    obtain ⟨hnotmem, hndrest⟩ := hnd
    obtain ⟨g, hg⟩ :=
      Option.isSome_iff_exists.1 (hR r (List.mem_cons_self r rest))
    have hidx : lookupKey g idx = lookupKey g idx0 :=
      hagree r (List.mem_cons_self r rest) g hg
    have hRrest : ∀ x ∈ rest, (lookupKey "guid" x).isSome = true :=
      fun x hx => hR x (List.mem_cons_of_mem r hx)
    cases h0 : lookupKey g idx0 with
    | none =>
      have hagree' : ∀ x ∈ rest, ∀ g', lookupKey "guid" x = some g' →
          lookupKey g' idx = lookupKey g' idx0 :=
        fun x hx g' hg' => hagree x (List.mem_cons_of_mem r hx) g' hg'
      have hsucc : succOf idx0 r = none := by
        simp only [succOf, hg, h0]
      simp only [processLoop, hg, hidx, h0,
        ih idx hRrest hndrest hagree' hok]
      simp [List.filterMap_cons, List.filter_cons, hsucc, Except.map]
    | some md =>
      obtain ⟨hmdg, mem0, hmk⟩ := hok g md h0
      have hagree' : ∀ x ∈ rest, ∀ g', lookupKey "guid" x = some g' →
          lookupKey g' (setKey g (eraseKey "guid" md) idx) = lookupKey g' idx0 := by
        intro x hx g' hg'
        have hne : g' ≠ g := by
          intro hh
          subst hh
          exact hnotmem (by rw [hg, ← hg']; exact List.mem_map_of_mem _ hx)
        rw [lookupKey_setKey_ne g g' _ idx hne]
        exact hagree x (List.mem_cons_of_mem r hx) g' hg'
      have hsucc : succOf idx0 r = some mem0 := by
        simp only [succOf, hg, h0, hmk, Except.toOption]
      simp only [processLoop, hg, hidx, h0, hmdg, hmk,
        ih (setKey g (eraseKey "guid" md) idx) hRrest hndrest hagree' hok]
      simp [List.filterMap_cons, List.filter_cons, hsucc, Except.map]

/-- Claim C1 counterexample: the claim's universal partition fails on the
code: for the requested batch `[{guid:"g1", nickname:"Ann"}]` and returned
records `[{guid:"g1", id:"m1", user_id:"u1"}]` (each bearing a guid),
reconciliation produces no `(succeeded, failed)` partition at all — the
matched record lacks a `group_id` key, so `Member(manager, **member_data)`
raises `TypeError` (missing required positional argument). -/
theorem reconciliation_as_stated_raises :
    processNewMembers [[("guid", "g1"), ("nickname", "Ann")]]
      [[("guid", "g1"), ("id", "m1"), ("user_id", "u1")]] =
      Except.error PyError.typeError := rfl

/-- Claim C1 (amended): for every requested batch whose records each bear a
guid, with the requested guids pairwise distinct, and every returned batch
whose records each bear a guid together with `group_id` and `user_id`
fields, reconciliation succeeds and stably partitions the requests:
`succeeded` is the in-order image of the matched requests under member
construction from the indexed record minus its guid, `failed` is the
in-order sublist of unmatched requests unchanged, the lengths add up to the
request count, and a request is matched exactly when its guid occurs among
the returned records (returned records matching no request are silently
ignored). -/
theorem reconciliation_partition (R S : List Rec)
    (hR : ∀ r ∈ R, (lookupKey "guid" r).isSome = true)
    (hnd : (R.map (lookupKey "guid")).Nodup)
    (hS : ∀ s ∈ S, (lookupKey "guid" s).isSome = true)
    (hgid : ∀ s ∈ S, (lookupKey "group_id" (eraseKey "guid" s)).isSome = true)
    (huid : ∀ s ∈ S,
      (lookupKey "user_id" (eraseKey "group_id" (eraseKey "guid" s))).isSome = true) :
    ∃ idx0 succ fails,
      buildIndex S [] = Except.ok idx0 ∧
      processNewMembers R S = Except.ok (succ, fails) ∧
      succ = R.filterMap (succOf idx0) ∧
      fails = R.filter (fun r => (succOf idx0 r).isNone) ∧
      succ.length + fails.length = R.length ∧
      (∀ r ∈ R, (succOf idx0 r).isSome = matchedIn S r) := by
  obtain ⟨idx0, hbi⟩ := buildIndex_ok S hS []
  have hok : ∀ (g : String) (md : Rec), lookupKey g idx0 = some md →
      lookupKey "guid" md = some g ∧
        ∃ mem, mkMember (eraseKey "guid" md) = Except.ok mem := by
    intro g md hl
    rcases buildIndex_values S [] idx0 hbi g md hl with hacc | ⟨hmem, hguid⟩
    · simp [lookupKey] at hacc
    · refine ⟨hguid, ?_⟩
      obtain ⟨gid, h1⟩ := Option.isSome_iff_exists.1 (hgid md hmem)
      obtain ⟨uid, h2⟩ := Option.isSome_iff_exists.1 (huid md hmem)
      exact ⟨⟨gid, eraseKey "group_id" (eraseKey "guid" md)⟩,
        by simp [mkMember, h1, h2]⟩
  have hmain := processLoop_spec idx0 R idx0 hR hnd (fun r _ g _ => rfl) hok
  refine ⟨idx0, R.filterMap (succOf idx0),
    R.filter (fun r => (succOf idx0 r).isNone), hbi, ?_, rfl, rfl,
    length_filterMap_add_filter _ _, ?_⟩
  · unfold processNewMembers
    rw [hbi]
    exact hmain
  · intro r hr
    obtain ⟨g, hg⟩ := Option.isSome_iff_exists.1 (hR r hr)
    have hdom := buildIndex_domain S [] idx0 hbi g
    simp only [lookupKey, Option.isSome_none, Bool.false_or] at hdom
    cases h0 : lookupKey g idx0 with
    | none =>
      rw [h0] at hdom
      simp only [succOf, matchedIn, hg, h0]
      simp only [Option.isSome_none] at hdom ⊢
      exact hdom
    | some md =>
      obtain ⟨-, mem0, hmk⟩ := hok g md h0
      rw [h0] at hdom
      simp only [succOf, matchedIn, hg, h0, hmk, Except.toOption]
      simp only [Option.isSome_some] at hdom ⊢
      exact hdom

theorem reconciliation_partition_w :
    ∃ idx0 succ fails,
      buildIndex [[("guid", "g1"), ("group_id", "G"), ("user_id", "u1")]] [] =
        Except.ok idx0 ∧
      processNewMembers [[("guid", "g1")], [("guid", "g2")]]
        [[("guid", "g1"), ("group_id", "G"), ("user_id", "u1")]] =
        Except.ok (succ, fails) ∧
      succ = [[("guid", "g1")], [("guid", "g2")]].filterMap (succOf idx0) ∧
      fails = [[("guid", "g1")], [("guid", "g2")]].filter
        (fun r => (succOf idx0 r).isNone) ∧
      succ.length + fails.length =
        ([[("guid", "g1")], [("guid", "g2")]] : List Rec).length ∧
      (∀ r ∈ ([[("guid", "g1")], [("guid", "g2")]] : List Rec),
        (succOf idx0 r).isSome =
          matchedIn [[("guid", "g1"), ("group_id", "G"), ("user_id", "u1")]] r) :=
  reconciliation_partition [[("guid", "g1")], [("guid", "g2")]]
    [[("guid", "g1"), ("group_id", "G"), ("user_id", "u1")]]
    (by decide) (by decide) (by decide) (by decide) (by decide)

/-- Claim C10 (amended): `Member.__repr__` reads the canonical field
`nickname` (together with `user_id`); the `nicknack` naming inconsistency
lives in the test fixture, not in `__repr__`.  On data carrying `nickname`
the rendering accesses succeed and yield the two field values. -/
theorem repr_reads_nickname :
    memberReprFields ⟨"bar", [("id", "foo"), ("user_id", "baz"), ("nickname", "nick")]⟩ =
      Except.ok ("baz", "nick") := rfl

end Groupy
